import Mathlib

/-!
Shallow embedding of `src/main.go` (OpenTelemetry basic example).

The program wires an OTLP telemetry pipeline (`initProvider`, `handleErr`)
and then runs an infinite simulator loop: each iteration calls `f1`, which
starts an outer span, sleeps a random number of milliseconds selected by a
bucket table keyed on `unix_time % 5`, ends the span, prints 0-6 random
"line length" measurements, calls `f2` (the identically-shaped inner unit
of work, run under the outer span's context), and finally prints its own
latency line.

Modelling choices:
* Wall-clock reads (`time.Now()`) are an environment function
  `Env.clock : Nat -> Nat` giving the nanosecond reading of the k-th call;
  `Unix()` seconds are `clock k / 10^9`.  Go's `time.Since` uses the
  monotonic clock, so theorems about latency assume `Monotone env.clock`.
* The PRNG (`math/rand` seeded once in `main`) is an environment function
  `Env.raw : Nat -> Nat` giving the k-th draw; `Int63n n` / `Int31n n`
  are modelled as `raw k % n`, which is in `[0, n)` exactly as the Go
  API guarantees.  Uniformity of the draws is the PRNG collaborator's
  contract, not program logic, and is not modelled beyond the range.
* Observable actions (span start/end, sleep, printed lines) are recorded
  in an event trace; `fmt.Printf` lines are kept structured
  (`Event.measureLine`, `Event.latencyLine`) and rendered to strings by
  `render`.  Go's `%.3f` float formatting is modelled as integer rounding
  half-up to the microsecond followed by 3-digit zero padding.
-/

namespace OtelSim

/-- Observable actions of the simulator, in program order.  `start sid parent
name` is `tracer.Start`, `stop sid` is `span.End()`, `sleep ms` is
`time.Sleep`, `measureLine i v` is the `#i: LineLength: vBy` print and
`latencyLine ns` the `Latency: ...ms` print carrying the elapsed
nanoseconds. -/
inductive Event where
  | start (sid : Nat) (parent : Option Nat) (name : String)
  | stop (sid : Nat)
  | sleep (ms : Nat)
  | measureLine (idx : Nat) (val : Nat)
  | latencyLine (ns : Int)
  deriving DecidableEq, Repr

/-- The external world: `clock k` is the nanosecond wall-clock reading of the
k-th `time.Now()` call; `raw k` is the k-th raw draw of the seeded
`math/rand` source. -/
structure Env where
  clock : Nat → Nat
  raw : Nat → Nat

/-- Mutable state threaded through the simulator: indices of the next clock
read and RNG draw, the next fresh span id, and the trace of events so far. -/
structure St where
  clockIdx : Nat
  rngIdx : Nat
  nextSid : Nat
  events : List Event
  deriving Repr

/-- Append one observable event to the trace. -/
def emit (e : Event) (s : St) : St :=
  { s with events := s.events ++ [e] }

/-- `time.Now()`: read the wall clock (nanoseconds). -/
def now (env : Env) (s : St) : Nat × St :=
  (env.clock s.clockIdx, { s with clockIdx := s.clockIdx + 1 })

/-- `Unix()` seconds of a nanosecond reading. -/
def unixSec (ns : Nat) : Nat :=
  ns / 1000000000

/-- `rng.Int63n n`: a draw in `[0, n)` from the seeded source. -/
def int63n (env : Env) (n : Nat) (s : St) : Nat × St :=
  (env.raw s.rngIdx % n, { s with rngIdx := s.rngIdx + 1 })

/-- `rng.Int31n n`: same source, same range contract. -/
def int31n (env : Env) (n : Nat) (s : St) : Nat × St :=
  (env.raw s.rngIdx % n, { s with rngIdx := s.rngIdx + 1 })

/-- `tracer.Start(ctx, name)`: allocate a fresh span id as a child of the
context's active span and record the start event; returns the new span id
(the returned child context is `some sid`). -/
def startSpan (name : String) (parent : Option Nat) (s : St) : Nat × St :=
  (s.nextSid,
    { s with
      nextSid := s.nextSid + 1
      events := s.events ++ [Event.start s.nextSid parent name] })

/-- The delay upper bound table of the `switch modulus` statement
(milliseconds, exclusive); `0` for the unreachable default (the Go `sleep`
variable keeps its zero value when no case matches). -/
def boundOf : Nat → Nat
  | 0 => 17001
  | 1 => 8007
  | 2 => 917
  | 3 => 87
  | 4 => 1173
  | _ => 0

/-- The `switch modulus := time.Now().Unix() % 5` statement of `f1`/`f2`:
each case draws `Int63n` with its bucket's bound; no draw happens on the
(unreachable) default. -/
def sleepSwitch (env : Env) (m : Nat) (s : St) : Nat × St :=
  match m with
  | 0 => int63n env 17001 s
  | 1 => int63n env 8007 s
  | 2 => int63n env 917 s
  | 3 => int63n env 87 s
  | 4 => int63n env 1173 s
  | _ => (0, s)

/-- The measurement loop `for i := 0; i < nr; i++` of `f1`/`f2`: `k` draws
remain, `i` is the current index; each pass draws `Int63n(999)` and prints
the `#i: LineLength: vBy` line. -/
def measureLoop (env : Env) : Nat → Nat → St → St
  | 0, _, s => s
  | k + 1, i, s =>
    let p := int63n env 999 s
    measureLoop env k (i + 1) (emit (Event.measureLine i p.1) p.2)

/-- `f2` of `src/main.go`: the inner unit of work.  Records the start time,
starts a span under the caller's context, draws and performs the bucketed
random sleep, ends the span, computes the latency, draws `Int31n(7)`
measurements and prints them, then prints the latency line. -/
def f2 (env : Env) (ctx : Option Nat) (s : St) : St :=
  let p0 := now env s
  let startTime := p0.1
  let p1 := startSpan "ExecuteRequest" ctx p0.2
  let sid := p1.1
  let p2 := now env p1.2
  let m := unixSec p2.1 % 5
  let p3 := sleepSwitch env m p2.2
  let s3 := emit (Event.sleep p3.1) p3.2
  let s4 := emit (Event.stop sid) s3
  let p5 := now env s4
  let latencyNs : Int := (p5.1 : Int) - (startTime : Int)
  let p6 := int31n env 7 p5.2
  let s7 := measureLoop env p6.1 0 p6.2
  emit (Event.latencyLine latencyNs) s7

/-- `f1` of `src/main.go`: the outer unit of work.  Identical shape to `f2`
except that after its own measurement loop it invokes `f2` with the child
context of its span, and only then prints its latency line (whose value was
computed before the `f2` call). -/
def f1 (env : Env) (ctx : Option Nat) (s : St) : St :=
  let p0 := now env s
  let startTime := p0.1
  let p1 := startSpan "ExecuteRequest" ctx p0.2
  let sid := p1.1
  let childCtx : Option Nat := some sid
  let p2 := now env p1.2
  let m := unixSec p2.1 % 5
  let p3 := sleepSwitch env m p2.2
  let s3 := emit (Event.sleep p3.1) p3.2
  let s4 := emit (Event.stop sid) s3
  let p5 := now env s4
  let latencyNs : Int := (p5.1 : Int) - (startTime : Int)
  let p6 := int31n env 7 p5.2
  let s7 := measureLoop env p6.1 0 p6.2
  let s8 := f2 env childCtx s7
  emit (Event.latencyLine latencyNs) s8

/-- The infinite `for` loop of `main`, observed for `fuel` iterations; the
loop context is the baggage context with no active span. -/
def loop (env : Env) : Nat → St → St
  | 0, s => s
  | k + 1, s => loop env k (f1 env none s)

/-- The three calls of the shutdown closure returned by `initProvider`, in
order: `tracerProvider.Shutdown(ctx)` (flushes and stops the trace
provider), `exp.Shutdown(ctx)` (stops the exporter), `pusher.Stop()`
(pushes any last exports to the receiver). -/
inductive ShutdownStep where
  | shutdownTracerProvider
  | shutdownExporter
  | stopPusher
  deriving DecidableEq, Repr

/-- `handleErr(err, message)`: on a present error, `log.Fatalf` terminates
the process with exit code 1 and the message `message: err`; otherwise it is
a no-op. -/
def handleErr (err : Option String) (message : String) : Option (Nat × String) :=
  err.map (fun e => (1, message ++ ": " ++ e))

/-- `initProvider` of `src/main.go`, parametrised by the possible failures
of its two fallible constructors (`otlp.NewExporter` and `resource.New`).
On failure it aborts fatally through `handleErr`; on success it installs the
pipeline and returns the shutdown closure, modelled as its ordered list of
teardown steps. -/
def initProvider (expErr resErr : Option String) :
    Except (Nat × String) (List ShutdownStep) :=
  match handleErr expErr "failed to create exporter" with
  | some f => Except.error f
  | none =>
    match handleErr resErr "failed to create resource" with
    | some f => Except.error f
    | none =>
      Except.ok [ShutdownStep.shutdownTracerProvider,
                 ShutdownStep.shutdownExporter,
                 ShutdownStep.stopPusher]

/-- `main`: initialize the pipeline, then run the simulator loop (observed
for `fuel` iterations) from the empty initial state.  A fatal
initialization error terminates the process before the loop. -/
def runMain (env : Env) (expErr resErr : Option String) (fuel : Nat) :
    Except (Nat × String) St :=
  match initProvider expErr resErr with
  | Except.error f => Except.error f
  | Except.ok _shutdown => Except.ok (loop env fuel ⟨0, 0, 0, []⟩)

/-! ### Closed forms of the traces -/

/-- Events appended by the measurement loop when `k` draws remain, the next
index is `i` and the next RNG index is `r`. -/
def batch (env : Env) : Nat → Nat → Nat → List Event
  | 0, _, _ => []
  | k + 1, i, r => Event.measureLine i (env.raw r % 999) :: batch env k (i + 1) (r + 1)

/-- Events appended by one run of `f2` started at clock index `c`, RNG index
`r` and fresh span id `sid`, under context `ctx`. -/
def f2Events (env : Env) (ctx : Option Nat) (c r sid : Nat) : List Event :=
  [Event.start sid ctx "ExecuteRequest",
   Event.sleep (env.raw r % boundOf (unixSec (env.clock (c + 1)) % 5)),
   Event.stop sid]
  ++ batch env (env.raw (r + 1) % 7) 0 (r + 2)
  ++ [Event.latencyLine ((env.clock (c + 2) : Int) - (env.clock c : Int))]

/-- Events appended by one run of `f1` started at clock index `c`, RNG index
`r` and fresh span id `sid`, under context `ctx`. -/
def f1Events (env : Env) (ctx : Option Nat) (c r sid : Nat) : List Event :=
  [Event.start sid ctx "ExecuteRequest",
   Event.sleep (env.raw r % boundOf (unixSec (env.clock (c + 1)) % 5)),
   Event.stop sid]
  ++ batch env (env.raw (r + 1) % 7) 0 (r + 2)
  ++ f2Events env (some sid) (c + 3) (r + 2 + env.raw (r + 1) % 7) (sid + 1)
  ++ [Event.latencyLine ((env.clock (c + 2) : Int) - (env.clock c : Int))]

/-! ### Trace projections and rendering -/

/-- The `StartSpan` calls of a trace, in order: span id and parent context. -/
def spanStarts (evs : List Event) : List (Nat × Option Nat) :=
  evs.filterMap fun e =>
    match e with
    | Event.start sid parent _ => some (sid, parent)
    | _ => none

/-- The `EndSpan` (`span.End()`) calls of a trace, in order. -/
def spanStops (evs : List Event) : List Nat :=
  evs.filterMap fun e =>
    match e with
    | Event.stop sid => some sid
    | _ => none

/-- The span lifecycle events (starts and ends) of a trace, in order. -/
def spanEvents (evs : List Event) : List Event :=
  evs.filter fun e =>
    match e with
    | Event.start _ _ _ => true
    | Event.stop _ => true
    | _ => false

/-- The simulated sleep durations of a trace (milliseconds), in order. -/
def sleepsOf (evs : List Event) : List Nat :=
  evs.filterMap fun e =>
    match e with
    | Event.sleep ms => some ms
    | _ => none

/-- The surfaced measurements of a trace, in order: batch index and value. -/
def measuresOf (evs : List Event) : List (Nat × Nat) :=
  evs.filterMap fun e =>
    match e with
    | Event.measureLine i v => some (i, v)
    | _ => none

/-- The surfaced latencies of a trace (nanoseconds), in order. -/
def latenciesOf (evs : List Event) : List Int :=
  evs.filterMap fun e =>
    match e with
    | Event.latencyLine ns => some ns
    | _ => none

/-- The random draws observable in a trace (sleep durations and
measurements), the data that must be reproducible across seeded runs. -/
def draws (evs : List Event) : List Event :=
  evs.filter fun e =>
    match e with
    | Event.sleep _ => true
    | Event.measureLine _ _ => true
    | _ => false

/-- The span id `a` is ended strictly before span id `b` in the trace:
both `EndSpan` calls occur, and (each span being ended at most once in the
traces at hand) the first end of `a` comes before the first end of `b`. -/
def stopPrecedes (evs : List Event) (a b : Nat) : Prop :=
  a ∈ spanStops evs ∧ b ∈ spanStops evs ∧
    (spanStops evs).indexOf a < (spanStops evs).indexOf b

/-- Three-digit zero-padded decimal rendering of `n % 1000`, the fractional
part of `%.3f`. -/
def pad3 (n : Nat) : String :=
  String.mk [Nat.digitChar (n / 100 % 10), Nat.digitChar (n / 10 % 10),
    Nat.digitChar (n % 10)]

/-- `%.3f` applied to `float64(ns) / 1e6`: the elapsed nanoseconds shown as
milliseconds with exactly three decimals.  The float rounding is modelled as
integer rounding half-up to the microsecond. -/
def fmt3 (ns : Int) : String :=
  let micro := (ns.toNat + 500) / 1000
  toString (micro / 1000) ++ "." ++ pad3 micro

/-- The line printed by `fmt.Printf("#%d: LineLength: %dBy\n", i, v)`. -/
def measureLineStr (i v : Nat) : String :=
  "#" ++ toString i ++ ": LineLength: " ++ toString v ++ "By"

/-- The line printed by `fmt.Printf("Latency: %.3fms\n", latencyMs)`. -/
def latencyLineStr (ns : Int) : String :=
  "Latency: " ++ fmt3 ns ++ "ms"

/-- The standard-output line produced by an event, if any (without the
trailing newline). -/
def render (e : Event) : Option String :=
  match e with
  | Event.measureLine i v => some (measureLineStr i v)
  | Event.latencyLine ns => some (latencyLineStr ns)
  | _ => none

/-- The standard-output lines of a trace, in order. -/
def outLines (evs : List Event) : List String :=
  evs.filterMap render

/-- The latency value surfaced for `ns` elapsed nanoseconds, in
milliseconds: `float64(elapsed) / 1e6` of the Go source. -/
def msOf (ns : Int) : ℚ :=
  (ns : ℚ) / 1000000

/-- A concrete environment for witnesses: the clock reads `k` nanoseconds at
the k-th call (monotone) and every raw draw is `0`. -/
def env0 : Env :=
  ⟨fun k => k, fun _ => 0⟩

/-- Witness environment: constant clock at second `0`, raw draw `k` at the
k-th call. -/
def envA : Env :=
  ⟨fun _ => 0, fun k => k⟩

/-- Witness environment: constant clock at second `5` (same value of
`unix_time % 5` as `envA`), same raw draws as `envA`. -/
def envB : Env :=
  ⟨fun _ => 5000000000, fun k => k⟩

/-! ### Closed-form and projection lemmas -/

theorem sleepSwitch_eq (env : Env) {m : Nat} (hm : m < 5) (s : St) :
    sleepSwitch env m s =
      (env.raw s.rngIdx % boundOf m, { s with rngIdx := s.rngIdx + 1 }) := by
  interval_cases m <;> simp [sleepSwitch, int63n, boundOf]

theorem measureLoop_eq (env : Env) (k : Nat) :
    ∀ (i : Nat) (s : St),
      measureLoop env k i s =
        { s with
          rngIdx := s.rngIdx + k
          events := s.events ++ batch env k i s.rngIdx } := by
  induction k with
  | zero => intro i s; simp [measureLoop, batch]
  | succ k ih =>
    intro i s
    simp [measureLoop, int63n, emit, batch, ih, List.append_assoc]
    omega

theorem f2_eq (env : Env) (ctx : Option Nat) (s : St) :
    f2 env ctx s =
      { clockIdx := s.clockIdx + 3
        rngIdx := s.rngIdx + 2 + env.raw (s.rngIdx + 1) % 7
        nextSid := s.nextSid + 1
        events := s.events ++ f2Events env ctx s.clockIdx s.rngIdx s.nextSid } := by
  have hm : unixSec (env.clock (s.clockIdx + 1)) % 5 < 5 :=
    Nat.mod_lt _ (by norm_num)
  simp only [f2, now, startSpan, emit, int31n, sleepSwitch_eq env hm,
    measureLoop_eq, f2Events]
  simp [List.append_assoc]

theorem f1_eq (env : Env) (ctx : Option Nat) (s : St) :
    f1 env ctx s =
      { clockIdx := s.clockIdx + 6
        rngIdx := s.rngIdx + 4 + env.raw (s.rngIdx + 1) % 7 +
          env.raw (s.rngIdx + 2 + env.raw (s.rngIdx + 1) % 7 + 1) % 7
        nextSid := s.nextSid + 2
        events := s.events ++ f1Events env ctx s.clockIdx s.rngIdx s.nextSid } := by
  have hm : unixSec (env.clock (s.clockIdx + 1)) % 5 < 5 :=
    Nat.mod_lt _ (by norm_num)
  simp only [f1, now, startSpan, emit, int31n, sleepSwitch_eq env hm,
    measureLoop_eq, f2_eq, f1Events, f2Events]
  simp [St.mk.injEq, List.append_assoc, Nat.add_assoc, Nat.add_comm,
    Nat.add_left_comm]
  omega

theorem spanStarts_batch (env : Env) :
    ∀ k i r, spanStarts (batch env k i r) = [] := by
  intro k
  induction k with
  | zero => intro i r; simp [batch, spanStarts]
  | succ k ih => intro i r; simp [batch, spanStarts] at ih ⊢; exact ih _ _

theorem spanStops_batch (env : Env) :
    ∀ k i r, spanStops (batch env k i r) = [] := by
  intro k
  induction k with
  | zero => intro i r; simp [batch, spanStops]
  | succ k ih => intro i r; simp [batch, spanStops] at ih ⊢; exact ih _ _

theorem spanEvents_batch (env : Env) :
    ∀ k i r, spanEvents (batch env k i r) = [] := by
  intro k
  induction k with
  | zero => intro i r; simp [batch, spanEvents]
  | succ k ih => intro i r; simp [batch, spanEvents] at ih ⊢; exact ih _ _

theorem sleepsOf_batch (env : Env) :
    ∀ k i r, sleepsOf (batch env k i r) = [] := by
  intro k
  induction k with
  | zero => intro i r; simp [batch, sleepsOf]
  | succ k ih => intro i r; simp [batch, sleepsOf] at ih ⊢; exact ih _ _

theorem latenciesOf_batch (env : Env) :
    ∀ k i r, latenciesOf (batch env k i r) = [] := by
  intro k
  induction k with
  | zero => intro i r; simp [batch, latenciesOf]
  | succ k ih => intro i r; simp [batch, latenciesOf] at ih ⊢; exact ih _ _

theorem measuresOf_batch_fst (env : Env) :
    ∀ k i r, (measuresOf (batch env k i r)).map Prod.fst = List.range' i k := by
  intro k
  induction k with
  | zero => intro i r; simp [batch, measuresOf]
  | succ k ih =>
    intro i r
    simp [batch, measuresOf, List.range'_succ] at ih ⊢
    exact ih _ _

theorem measuresOf_batch_snd (env : Env) :
    ∀ k i r, (measuresOf (batch env k i r)).map Prod.snd =
      (List.range' r k).map (fun t => env.raw t % 999) := by
  intro k
  induction k with
  | zero => intro i r; simp [batch, measuresOf]
  | succ k ih =>
    intro i r
    simp [batch, measuresOf, List.range'_succ] at ih ⊢
    exact ih _ _

theorem measuresOf_batch_val (env : Env) :
    ∀ k i r, ∀ p ∈ measuresOf (batch env k i r), p.2 < 999 := by
  intro k
  induction k with
  | zero => intro i r p hp; simp [batch, measuresOf] at hp
  | succ k ih =>
    intro i r p hp
    simp only [batch, measuresOf, List.filterMap_cons] at hp
    simp only [List.mem_cons] at hp
    rcases hp with h | h
    · subst h; exact Nat.mod_lt _ (by norm_num)
    · exact ih _ _ p h

theorem outLines_batch (env : Env) :
    ∀ k i r, outLines (batch env k i r) =
      (measuresOf (batch env k i r)).map (fun p => measureLineStr p.1 p.2) := by
  intro k
  induction k with
  | zero => intro i r; simp [batch, outLines, measuresOf]
  | succ k ih =>
    intro i r
    simp [batch, outLines, measuresOf, render] at ih ⊢
    exact ih _ _

theorem draws_batch (env : Env) :
    ∀ k i r, draws (batch env k i r) = batch env k i r := by
  intro k
  induction k with
  | zero => intro i r; simp [batch, draws]
  | succ k ih =>
    intro i r
    simp [batch, draws] at ih ⊢
    exact ih _ _

theorem batch_congr {e1 e2 : Env} (h : e1.raw = e2.raw) :
    ∀ k i r, batch e1 k i r = batch e2 k i r := by
  intro k
  induction k with
  | zero => intro i r; simp [batch]
  | succ k ih => intro i r; simp [batch, h, ih]

theorem boundOf_pos {m : Nat} (hm : m < 5) : 0 < boundOf m := by
  interval_cases m <;> simp [boundOf]

theorem f1_events_eq (env : Env) (ctx : Option Nat) (c r n : Nat) :
    (f1 env ctx ⟨c, r, n, []⟩).events = f1Events env ctx c r n := by
  rw [f1_eq]
  rfl

theorem f2_events_eq (env : Env) (ctx : Option Nat) (c r n : Nat) :
    (f2 env ctx ⟨c, r, n, []⟩).events = f2Events env ctx c r n := by
  rw [f2_eq]
  rfl

theorem spanStops_f1Events (env : Env) (ctx : Option Nat) (c r n : Nat) :
    spanStops (f1Events env ctx c r n) = [n, n + 1] := by
  simp only [f1Events, f2Events, spanStops, List.filterMap_append]
  have h1 := spanStops_batch env (env.raw (r + 1) % 7) 0 (r + 2)
  have h2 := spanStops_batch env
    (env.raw (r + 2 + env.raw (r + 1) % 7 + 1) % 7) 0
    (r + 2 + env.raw (r + 1) % 7 + 2)
  simp only [spanStops] at h1 h2
  rw [h1, h2]
  simp

theorem spanStarts_f1Events (env : Env) (ctx : Option Nat) (c r n : Nat) :
    spanStarts (f1Events env ctx c r n) = [(n, ctx), (n + 1, some n)] := by
  simp only [f1Events, f2Events, spanStarts, List.filterMap_append]
  have h1 := spanStarts_batch env (env.raw (r + 1) % 7) 0 (r + 2)
  have h2 := spanStarts_batch env
    (env.raw (r + 2 + env.raw (r + 1) % 7 + 1) % 7) 0
    (r + 2 + env.raw (r + 1) % 7 + 2)
  simp only [spanStarts] at h1 h2
  rw [h1, h2]
  simp

theorem spanEvents_f1Events (env : Env) (ctx : Option Nat) (c r n : Nat) :
    spanEvents (f1Events env ctx c r n) =
      [Event.start n ctx "ExecuteRequest", Event.stop n,
       Event.start (n + 1) (some n) "ExecuteRequest", Event.stop (n + 1)] := by
  simp only [f1Events, f2Events, spanEvents, List.filter_append]
  have h1 := spanEvents_batch env (env.raw (r + 1) % 7) 0 (r + 2)
  have h2 := spanEvents_batch env
    (env.raw (r + 2 + env.raw (r + 1) % 7 + 1) % 7) 0
    (r + 2 + env.raw (r + 1) % 7 + 2)
  simp only [spanEvents] at h1 h2
  rw [h1, h2]
  simp

theorem sleepsOf_f1Events (env : Env) (ctx : Option Nat) (c r n : Nat) :
    sleepsOf (f1Events env ctx c r n) =
      [env.raw r % boundOf (unixSec (env.clock (c + 1)) % 5),
       env.raw (r + 2 + env.raw (r + 1) % 7) %
         boundOf (unixSec (env.clock (c + 4)) % 5)] := by
  simp only [f1Events, f2Events, sleepsOf, List.filterMap_append]
  have h1 := sleepsOf_batch env (env.raw (r + 1) % 7) 0 (r + 2)
  have h2 := sleepsOf_batch env
    (env.raw (r + 2 + env.raw (r + 1) % 7 + 1) % 7) 0
    (r + 2 + env.raw (r + 1) % 7 + 2)
  simp only [sleepsOf] at h1 h2
  rw [h1, h2]
  simp

theorem sleepsOf_f2Events (env : Env) (ctx : Option Nat) (c r n : Nat) :
    sleepsOf (f2Events env ctx c r n) =
      [env.raw r % boundOf (unixSec (env.clock (c + 1)) % 5)] := by
  simp only [f2Events, sleepsOf, List.filterMap_append]
  have h1 := sleepsOf_batch env (env.raw (r + 1) % 7) 0 (r + 2)
  simp only [sleepsOf] at h1
  rw [h1]
  simp

theorem measuresOf_f1Events (env : Env) (ctx : Option Nat) (c r n : Nat) :
    measuresOf (f1Events env ctx c r n) =
      measuresOf (batch env (env.raw (r + 1) % 7) 0 (r + 2)) ++
      measuresOf (batch env (env.raw (r + 2 + env.raw (r + 1) % 7 + 1) % 7) 0
        (r + 2 + env.raw (r + 1) % 7 + 2)) := by
  simp only [f1Events, f2Events, measuresOf, List.filterMap_append]
  simp

theorem measuresOf_f2Events (env : Env) (ctx : Option Nat) (c r n : Nat) :
    measuresOf (f2Events env ctx c r n) =
      measuresOf (batch env (env.raw (r + 1) % 7) 0 (r + 2)) := by
  simp only [f2Events, measuresOf, List.filterMap_append]
  simp

theorem latenciesOf_f1Events (env : Env) (ctx : Option Nat) (c r n : Nat) :
    latenciesOf (f1Events env ctx c r n) =
      [(env.clock (c + 5) : Int) - (env.clock (c + 3) : Int),
       (env.clock (c + 2) : Int) - (env.clock c : Int)] := by
  simp only [f1Events, f2Events, latenciesOf, List.filterMap_append]
  have h1 := latenciesOf_batch env (env.raw (r + 1) % 7) 0 (r + 2)
  have h2 := latenciesOf_batch env
    (env.raw (r + 2 + env.raw (r + 1) % 7 + 1) % 7) 0
    (r + 2 + env.raw (r + 1) % 7 + 2)
  simp only [latenciesOf] at h1 h2
  rw [h1, h2]
  simp

theorem latenciesOf_f2Events (env : Env) (ctx : Option Nat) (c r n : Nat) :
    latenciesOf (f2Events env ctx c r n) =
      [(env.clock (c + 2) : Int) - (env.clock c : Int)] := by
  simp only [f2Events, latenciesOf, List.filterMap_append]
  have h1 := latenciesOf_batch env (env.raw (r + 1) % 7) 0 (r + 2)
  simp only [latenciesOf] at h1
  rw [h1]
  simp

/-! ### Claims -/

/-- Claim C1, counterexample.  The claim says the inner span's end always
precedes the outer span's end.  Run `f1` in the concrete environment `env0`
from the empty initial state: the outer unit's span gets id 0 and the inner
unit's span id 1, and the trace ends span 0 (at `src/main.go:170`) before
`f2` is even invoked (at `src/main.go:180`), so span 1's end does not
precede span 0's end. -/
theorem claim1_counterexample :
    ¬ stopPrecedes ((f1 env0 none ⟨0, 0, 0, []⟩).events) 1 0 := by
  unfold stopPrecedes
  decide

/-- Claim C1, amended: in every iteration the span lifecycle order is
outer start, outer end, inner start, inner end — the outer unit's span is
ended before the inner unit `f2` is invoked (the inner unit still runs to
completion, synchronously, before the outer unit prints its latency line),
so the OUTER span's end precedes the INNER span's end and even the inner
span's start. -/
theorem claim1_amended (env : Env) (ctx : Option Nat) (c r n : Nat) :
    spanEvents ((f1 env ctx ⟨c, r, n, []⟩).events) =
      [Event.start n ctx "ExecuteRequest", Event.stop n,
       Event.start (n + 1) (some n) "ExecuteRequest", Event.stop (n + 1)] ∧
    stopPrecedes ((f1 env ctx ⟨c, r, n, []⟩).events) n (n + 1) := by
  rw [f1_events_eq]
  refine ⟨spanEvents_f1Events env ctx c r n, ?_⟩
  unfold stopPrecedes
  rw [spanStops_f1Events]
  refine ⟨by simp, by simp, ?_⟩
  rw [List.indexOf_cons_self]
  have hne : n ≠ n + 1 := by omega
  rw [List.indexOf_cons_ne _ hne]
  omega

/-- Claim C4: in every iteration, every started span is ended exactly once.
`f1` performs exactly the two starts (its own span `n` under the caller's
context and, through `f2`, the child span `n + 1` under `n`) and exactly
the two matching ends, within its own call frame; `f2` alone performs
exactly one start and one end of its own span.  Span ids are fresh and
never reused. -/
theorem claim4_span_lifecycle (env : Env) (ctx : Option Nat) (c r n : Nat) :
    spanStarts ((f1 env ctx ⟨c, r, n, []⟩).events) = [(n, ctx), (n + 1, some n)] ∧
    spanStops ((f1 env ctx ⟨c, r, n, []⟩).events) = [n, n + 1] ∧
    (spanStops ((f1 env ctx ⟨c, r, n, []⟩).events)).count n = 1 ∧
    (spanStops ((f1 env ctx ⟨c, r, n, []⟩).events)).count (n + 1) = 1 ∧
    spanStarts ((f2 env ctx ⟨c, r, n, []⟩).events) = [(n, ctx)] ∧
    spanStops ((f2 env ctx ⟨c, r, n, []⟩).events) = [n] := by
  rw [f1_events_eq, f2_events_eq]
  refine ⟨spanStarts_f1Events env ctx c r n, spanStops_f1Events env ctx c r n,
    ?_, ?_, ?_, ?_⟩
  · rw [spanStops_f1Events]
    simp [List.count_cons]
  · rw [spanStops_f1Events]
    simp [List.count_cons]
  · simp only [f2Events, spanStarts, List.filterMap_append]
    have h1 := spanStarts_batch env (env.raw (r + 1) % 7) 0 (r + 2)
    simp only [spanStarts] at h1
    rw [h1]
    simp
  · simp only [f2Events, spanStops, List.filterMap_append]
    have h1 := spanStops_batch env (env.raw (r + 1) % 7) 0 (r + 2)
    simp only [spanStops] at h1
    rw [h1]
    simp

/-- Claim C2: in each unit of work the delay is drawn at the top of the unit
with the modulus `m = unix_time % 5` re-evaluated there (`f1` reads the
clock at global index `c + 1`, the nested `f2` re-reads it at index
`c + 4`), the upper bound is given by the table `0 ↦ 17001, 1 ↦ 8007,
2 ↦ 917, 3 ↦ 87, 4 ↦ 1173` milliseconds, and the drawn delay lies in
`[0, bound)`.  (Uniformity of the draw is the `math/rand` collaborator's
contract, modelled here by the range guarantee.) -/
theorem claim2_delay_buckets (env : Env) (ctx : Option Nat) (c r n : Nat) :
    sleepsOf ((f1 env ctx ⟨c, r, n, []⟩).events) =
      [env.raw r % boundOf (unixSec (env.clock (c + 1)) % 5),
       env.raw (r + 2 + env.raw (r + 1) % 7) %
         boundOf (unixSec (env.clock (c + 4)) % 5)] ∧
    env.raw r % boundOf (unixSec (env.clock (c + 1)) % 5) <
      boundOf (unixSec (env.clock (c + 1)) % 5) ∧
    env.raw (r + 2 + env.raw (r + 1) % 7) %
        boundOf (unixSec (env.clock (c + 4)) % 5) <
      boundOf (unixSec (env.clock (c + 4)) % 5) ∧
    boundOf 0 = 17001 ∧ boundOf 1 = 8007 ∧ boundOf 2 = 917 ∧
    boundOf 3 = 87 ∧ boundOf 4 = 1173 := by
  rw [f1_events_eq, sleepsOf_f1Events]
  have p1 : 0 < boundOf (unixSec (env.clock (c + 1)) % 5) :=
    boundOf_pos (Nat.mod_lt _ (by norm_num))
  have p2 : 0 < boundOf (unixSec (env.clock (c + 4)) % 5) :=
    boundOf_pos (Nat.mod_lt _ (by norm_num))
  exact ⟨rfl, Nat.mod_lt _ p1, Nat.mod_lt _ p2, rfl, rfl, rfl, rfl, rfl⟩

/-- Claim C3: in each unit of work the measurement count is `Int31n(7)`,
hence in `[0, 7)`; each measurement value is `Int63n(999)`, hence in
`[0, 999)`; and each value is surfaced tagged with its index within the
batch, counting from 0 (the index projections of the surfaced measurement
batches are exactly `[0, ..., n-1]`). -/
theorem claim3_measurements (env : Env) (ctx : Option Nat) (c r n : Nat) :
    env.raw (r + 1) % 7 < 7 ∧
    env.raw (r + 2 + env.raw (r + 1) % 7 + 1) % 7 < 7 ∧
    (measuresOf ((f1 env ctx ⟨c, r, n, []⟩).events)).map Prod.fst =
      List.range' 0 (env.raw (r + 1) % 7) ++
      List.range' 0 (env.raw (r + 2 + env.raw (r + 1) % 7 + 1) % 7) ∧
    (∀ p ∈ measuresOf ((f1 env ctx ⟨c, r, n, []⟩).events), p.2 < 999) ∧
    (measuresOf ((f2 env ctx ⟨c, r, n, []⟩).events)).map Prod.fst =
      List.range' 0 (env.raw (r + 1) % 7) ∧
    (∀ p ∈ measuresOf ((f2 env ctx ⟨c, r, n, []⟩).events), p.2 < 999) := by
  rw [f1_events_eq, f2_events_eq, measuresOf_f1Events, measuresOf_f2Events]
  refine ⟨Nat.mod_lt _ (by norm_num), Nat.mod_lt _ (by norm_num), ?_, ?_, ?_, ?_⟩
  · rw [List.map_append, measuresOf_batch_fst, measuresOf_batch_fst]
  · intro p hp
    rcases List.mem_append.mp hp with h | h
    · exact measuresOf_batch_val env _ _ _ p h
    · exact measuresOf_batch_val env _ _ _ p h
  · rw [measuresOf_batch_fst]
  · intro p hp
    exact measuresOf_batch_val env _ _ _ p hp

/-- Claim C3 witness: in the concrete environment `envA` the outer unit
surfaces the measurement `(0, 2)`, and its value is below 999. -/
theorem claim3_witness :
    (0, 2) ∈ measuresOf ((f1 envA none ⟨0, 0, 0, []⟩).events) ∧
      (0, 2).2 < 999 :=
  ⟨by decide, (claim3_measurements envA none 0 0 0).2.2.2.1 (0, 2) (by decide)⟩

/-- Claim C5: the outer unit's surfaced latency is computed from the clock
reads at global indices `c` (its recorded start, `src/main.go:151`) and
`c + 2` (taken immediately after `span.End()`, `src/main.go:171`), both of
which happen before `f2` performs any of its reads (indices `c + 3` to
`c + 5`) — so the printed value never includes the inner unit's delay or
reporting — yet the outer latency line is the very last event of the
iteration, printed only after `f2` returns. -/
theorem claim5_latency_capture (env : Env) (ctx : Option Nat) (c r n : Nat) :
    latenciesOf ((f1 env ctx ⟨c, r, n, []⟩).events) =
      [(env.clock (c + 5) : Int) - (env.clock (c + 3) : Int),
       (env.clock (c + 2) : Int) - (env.clock c : Int)] ∧
    ((f1 env ctx ⟨c, r, n, []⟩).events).getLast? =
      some (Event.latencyLine ((env.clock (c + 2) : Int) - (env.clock c : Int))) := by
  rw [f1_events_eq]
  refine ⟨latenciesOf_f1Events env ctx c r n, ?_⟩
  simp only [f1Events]
  rw [List.getLast?_concat]

/-- Claim C6: under the monotone (Go monotonic) clock, each unit of work's
surfaced latency is non-negative and is exactly the wall-clock difference
between the unit's end read and its recorded start read; the surfaced
millisecond value is that elapsed duration divided by `1e6`
(`msOf ns * 1e6 = elapsed`). -/
theorem claim6_latency_consistent (env : Env) (hmono : Monotone env.clock)
    (ctx : Option Nat) (c r n : Nat) :
    latenciesOf ((f2 env ctx ⟨c, r, n, []⟩).events) =
      [(env.clock (c + 2) : Int) - (env.clock c : Int)] ∧
    (0 : Int) ≤ (env.clock (c + 2) : Int) - (env.clock c : Int) ∧
    (∀ x ∈ latenciesOf ((f1 env ctx ⟨c, r, n, []⟩).events), 0 ≤ x) ∧
    msOf ((env.clock (c + 2) : Int) - (env.clock c : Int)) * 1000000 =
      (env.clock (c + 2) : ℚ) - (env.clock c : ℚ) := by
  rw [f1_events_eq, f2_events_eq, latenciesOf_f1Events, latenciesOf_f2Events]
  refine ⟨rfl, ?_, ?_, ?_⟩
  · have h := hmono (show c ≤ c + 2 by omega)
    omega
  · intro x hx
    simp only [List.mem_cons, List.not_mem_nil, or_false] at hx
    rcases hx with h | h <;> subst h
    · have h := hmono (show c + 3 ≤ c + 5 by omega)
      omega
    · have h := hmono (show c ≤ c + 2 by omega)
      omega
  · unfold msOf
    push_cast
    field_simp

/-- Claim C6 witness: in the concrete monotone environment `env0` the
hypothesis holds and the inner unit's latency is non-negative. -/
theorem claim6_witness :
    Monotone env0.clock ∧
      (0 : Int) ≤ (env0.clock 2 : Int) - (env0.clock 0 : Int) :=
  ⟨fun _ _ h => h,
   (claim6_latency_consistent env0 (fun _ _ h => h) none 0 0 0).2.1⟩

/-- Claim C7: two runs over the same seeded raw-draw stream that observe the
same sequence of wall-clock `unix_time % 5` values produce exactly the same
observable draws — the same bucket selections, sleep delays, measurement
counts and measurement values (the latency lines may differ, as they read
the full clock). -/
theorem claim7_reproducible (e1 e2 : Env) (hraw : e1.raw = e2.raw)
    (hmod : ∀ k, unixSec (e1.clock k) % 5 = unixSec (e2.clock k) % 5)
    (ctx : Option Nat) (c r n : Nat) :
    draws ((f1 e1 ctx ⟨c, r, n, []⟩).events) =
      draws ((f1 e2 ctx ⟨c, r, n, []⟩).events) := by
  have hb := batch_congr hraw
  rw [f1_events_eq, f1_events_eq]
  simp only [f1Events, f2Events]
  rw [hraw, hmod (c + 1), hmod (c + 3 + 1)]
  simp only [hb]
  simp [draws, List.filter_append]

/-- Claim C7 witness: the concrete environments `envA` (clock constantly at
second 0) and `envB` (clock constantly at second 5) share raw draws and
`unix_time % 5` values, and indeed produce identical draw sequences. -/
theorem claim7_witness :
    envA.raw = envB.raw ∧
      (∀ k, unixSec (envA.clock k) % 5 = unixSec (envB.clock k) % 5) ∧
      draws ((f1 envA none ⟨0, 0, 0, []⟩).events) =
        draws ((f1 envB none ⟨0, 0, 0, []⟩).events) := by
  have hmod : ∀ k, unixSec (envA.clock k) % 5 = unixSec (envB.clock k) % 5 := by
    intro k
    norm_num [envA, envB, unixSec]
  exact ⟨rfl, hmod, claim7_reproducible envA envB rfl hmod none 0 0 0⟩

theorem pad3_mod (m : Nat) : pad3 (m % 1000) = pad3 m := by
  unfold pad3
  have h1 : m % 1000 / 100 % 10 = m / 100 % 10 := by omega
  have h2 : m % 1000 / 10 % 10 = m / 10 % 10 := by omega
  have h3 : m % 1000 % 10 = m % 10 := by omega
  rw [h1, h2, h3]

theorem pad3_length (m : Nat) : (pad3 m).length = 3 :=
  rfl

theorem fmt3_shape (ns : Int) :
    ∃ w f : Nat, f < 1000 ∧ fmt3 ns = toString w ++ "." ++ pad3 f ∧
      (pad3 f).length = 3 := by
  refine ⟨(ns.toNat + 500) / 1000 / 1000, (ns.toNat + 500) / 1000 % 1000,
    by omega, ?_, pad3_length _⟩
  unfold fmt3
  rw [pad3_mod]

theorem outLines_f1Events (env : Env) (ctx : Option Nat) (c r n : Nat) :
    outLines (f1Events env ctx c r n) =
      (measuresOf (batch env (env.raw (r + 1) % 7) 0 (r + 2))).map
        (fun p => measureLineStr p.1 p.2)
      ++ (measuresOf (batch env (env.raw (r + 2 + env.raw (r + 1) % 7 + 1) % 7) 0
            (r + 2 + env.raw (r + 1) % 7 + 2))).map
        (fun p => measureLineStr p.1 p.2)
      ++ [latencyLineStr ((env.clock (c + 5) : Int) - (env.clock (c + 3) : Int)),
          latencyLineStr ((env.clock (c + 2) : Int) - (env.clock c : Int))] := by
  simp only [f1Events, f2Events, outLines, List.filterMap_append]
  have h1 := outLines_batch env (env.raw (r + 1) % 7) 0 (r + 2)
  have h2 := outLines_batch env
    (env.raw (r + 2 + env.raw (r + 1) % 7 + 1) % 7) 0
    (r + 2 + env.raw (r + 1) % 7 + 2)
  simp only [outLines] at h1 h2
  rw [h1, h2]
  simp [render]

/-- Claim C8: a failure of exporter construction (and likewise of resource
construction) is fatal: the process terminates with exit code 1 and a
message referencing "failed to create exporter" (resp. "failed to create
resource") followed by the underlying error, and the simulator loop is
never entered (no `Except.ok` state is ever produced). -/
theorem claim8_fatal_init (env : Env) (fuel : Nat) (e : String)
    (resErr : Option String) :
    runMain env (some e) resErr fuel =
      Except.error (1, "failed to create exporter: " ++ e) ∧
    (∃ rest, "failed to create exporter: " ++ e =
      "failed to create exporter" ++ rest) ∧
    (1 : Nat) ≠ 0 ∧
    (∀ s : St, runMain env (some e) resErr fuel ≠ Except.ok s) ∧
    runMain env none (some e) fuel =
      Except.error (1, "failed to create resource: " ++ e) := by
  refine ⟨rfl, ⟨": " ++ e, ?_⟩, by omega, ?_, rfl⟩
  · rw [← String.append_assoc]
    have h : ("failed to create exporter: " : String) =
        "failed to create exporter" ++ ": " := by decide
    rw [h]
  · intro s h
    simp [runMain, initProvider, handleErr] at h

/-- Claim C8 witness: with a concrete exporter error the run terminates
fatally with exit code 1 and the expected message. -/
theorem claim8_witness :
    runMain env0 (some "connection refused") none 0 =
      Except.error (1, "failed to create exporter: " ++ "connection refused") :=
  (claim8_fatal_init env0 0 "connection refused" none).1

/-- Claim C9: on successful initialization, `initProvider` returns the
shutdown procedure whose invocation performs, in order: flush-and-stop of
the trace provider, shutdown of the exporter, and stop of the metrics
pusher (which pushes any last exports). -/
theorem claim9_shutdown_order :
    initProvider none none =
      Except.ok [ShutdownStep.shutdownTracerProvider,
                 ShutdownStep.shutdownExporter,
                 ShutdownStep.stopPusher] :=
  rfl

/-- Claim C10: the standard output of one iteration is exactly the
measurement lines of the outer then the inner batch, each of the form
`#<index>: LineLength: <value>By` with the index counting from 0 within its
batch, followed by the inner unit's latency line and finally the outer
unit's latency line, each of the form `Latency: <value>ms` with the value
rendered to exactly three decimal places. -/
theorem claim10_output_format (env : Env) (ctx : Option Nat) (c r n : Nat) :
    outLines ((f1 env ctx ⟨c, r, n, []⟩).events) =
      (measuresOf (batch env (env.raw (r + 1) % 7) 0 (r + 2))).map
        (fun p => measureLineStr p.1 p.2)
      ++ (measuresOf (batch env (env.raw (r + 2 + env.raw (r + 1) % 7 + 1) % 7) 0
            (r + 2 + env.raw (r + 1) % 7 + 2))).map
        (fun p => measureLineStr p.1 p.2)
      ++ [latencyLineStr ((env.clock (c + 5) : Int) - (env.clock (c + 3) : Int)),
          latencyLineStr ((env.clock (c + 2) : Int) - (env.clock c : Int))] ∧
    (measuresOf (batch env (env.raw (r + 1) % 7) 0 (r + 2))).map Prod.fst =
      List.range' 0 (env.raw (r + 1) % 7) ∧
    (measuresOf (batch env (env.raw (r + 2 + env.raw (r + 1) % 7 + 1) % 7) 0
        (r + 2 + env.raw (r + 1) % 7 + 2))).map Prod.fst =
      List.range' 0 (env.raw (r + 2 + env.raw (r + 1) % 7 + 1) % 7) ∧
    (∀ i v, measureLineStr i v =
      "#" ++ toString i ++ ": LineLength: " ++ toString v ++ "By") ∧
    (∀ ns : Int, ∃ w f : Nat, f < 1000 ∧
      latencyLineStr ns = "Latency: " ++ (toString w ++ "." ++ pad3 f) ++ "ms" ∧
      (pad3 f).length = 3) := by
  rw [f1_events_eq]
  refine ⟨outLines_f1Events env ctx c r n, measuresOf_batch_fst env _ _ _,
    measuresOf_batch_fst env _ _ _, fun i v => rfl, ?_⟩
  intro ns
  obtain ⟨w, f, hf, hfmt, hlen⟩ := fmt3_shape ns
  exact ⟨w, f, hf, by rw [latencyLineStr, hfmt], hlen⟩

end OtelSim
